import Mathlib

/-!
Verification development for the 3D world-builder prototype (`src/main.cpp`).

The simulation core of the program is shallowly embedded here: the C++ float
arithmetic is idealised as exact rational arithmetic (`ℚ`), `sqrtf` is modelled
by `ratSqrt` (structurally computable, exact on squares of rationals, which are
the only points at which any statement below inspects a square root
numerically), and the math-library `sinf`/`cosf` are abstract parameters
`qsin qcos : ℚ → ℚ`, matching the spec's treatment of trigonometry as an
external collaborator.
-/

namespace WorldBuilder

/-- 3D vector over exact rationals, modelling raylib's `Vector3`. -/
structure Vec3 where
  x : ℚ
  y : ℚ
  z : ℚ
deriving DecidableEq

/-- Display color. The simulation never inspects it, so it is kept as a tag. -/
abbrev Color := Nat

/-- Axis-aligned bounding box, modelling raylib's `BoundingBox`. -/
structure BoundingBox where
  min : Vec3
  max : Vec3
deriving DecidableEq

/-- Block entity (`src/main.cpp` lines 12-19). -/
structure Block where
  position : Vec3
  velocity : Vec3
  color : Color
  isStatic : Bool
  health : ℚ
  maxHealth : ℚ
deriving DecidableEq

/-- Structurally recursive integer square root (so that the kernel can
evaluate it on closed inputs). -/
def natSqrt : Nat → Nat
  | 0 => 0
  | n + 1 =>
    let r := natSqrt n
    if (r + 1) * (r + 1) ≤ n + 1 then r + 1 else r

/-- Rational model of `sqrtf`: integer square root of the numerator and of the
denominator. It is total and computable, nonnegative everywhere, positive on
positive inputs, and exact on squares of rationals. -/
def ratSqrt (q : ℚ) : ℚ := (natSqrt q.num.toNat : ℚ) / (natSqrt q.den : ℚ)

/-- raymath `Vector3Add`. -/
def Vector3Add (a b : Vec3) : Vec3 := ⟨a.x + b.x, a.y + b.y, a.z + b.z⟩

/-- raymath `Vector3Subtract`. -/
def Vector3Subtract (a b : Vec3) : Vec3 := ⟨a.x - b.x, a.y - b.y, a.z - b.z⟩

/-- raymath `Vector3Scale`. -/
def Vector3Scale (v : Vec3) (s : ℚ) : Vec3 := ⟨v.x * s, v.y * s, v.z * s⟩

/-- raymath `Vector3Length`, with `sqrtf` modelled by `ratSqrt`. -/
def Vector3Length (v : Vec3) : ℚ := ratSqrt (v.x * v.x + v.y * v.y + v.z * v.z)

/-- raymath `Vector3Distance`. -/
def Vector3Distance (a b : Vec3) : ℚ := Vector3Length (Vector3Subtract a b)

/-- raymath `Vector3Normalize`: scale by the inverse length, leaving the zero
vector unchanged (raymath substitutes length 1 when the length is zero). -/
def Vector3Normalize (v : Vec3) : Vec3 :=
  let l := Vector3Length v
  let l := if l = 0 then 1 else l
  ⟨v.x / l, v.y / l, v.z / l⟩

/-- raylib `CheckCollisionBoxes`: closed-interval overlap on all three axes. -/
def CheckCollisionBoxes (a b : BoundingBox) : Bool :=
  (decide (b.min.x ≤ a.max.x) && decide (a.min.x ≤ b.max.x)) &&
  (decide (b.min.y ≤ a.max.y) && decide (a.min.y ≤ b.max.y)) &&
  (decide (b.min.z ≤ a.max.z) && decide (a.min.z ≤ b.max.z))

/-- Block AABB: cube of edge `size` centred on the block (`src/main.cpp` 51-60). -/
def GetBlockBoundingBox (b : Block) (size : Vec3) : BoundingBox :=
  ⟨⟨b.position.x - size.x / 2, b.position.y - size.y / 2, b.position.z - size.z / 2⟩,
   ⟨b.position.x + size.x / 2, b.position.y + size.y / 2, b.position.z + size.z / 2⟩⟩

/-- Player AABB: feet at `position.y - size.y`, head at `position.y`
(`src/main.cpp` 62-71). -/
def GetPlayerBoundingBox (position size : Vec3) : BoundingBox :=
  ⟨⟨position.x - size.x / 2, position.y - size.y, position.z - size.z / 2⟩,
   ⟨position.x + size.x / 2, position.y, position.z + size.z / 2⟩⟩

/-! Constants of the simulation core (`src/main.cpp` 103-137). -/

def playerSpeed : ℚ := 5

def jumpForce : ℚ := 8

def gravity : ℚ := 20

def groundLevel : ℚ := 0

def playerHeight : ℚ := 2

def pushForce : ℚ := 3

def kickForce : ℚ := 15

def kickRange : ℚ := 3

def mouseSensitivity : ℚ := 3 / 1000

def playerSize : Vec3 := ⟨4/5, 2, 4/5⟩

def blockSize : Vec3 := ⟨2, 2, 2⟩

def friction : ℚ := 9/10

def blockGravity : ℚ := 20

def damageThreshold : ℚ := 3

def damageMultiplier : ℚ := 5

/-- Fixed resting height for block ground collision (`position.y <= 1.0f`). -/
def blockFloorHeight : ℚ := 1

/-- Placement epsilon used by the edit-mode operations (`0.1f`). -/
def snapEpsilon : ℚ := 1/10

/-! The kick ability (`src/main.cpp` 153-154 and 213-236). -/

/-- Cooldown update at the top of the frame (line 154):
`if (kickCooldown > 0) kickCooldown -= deltaTime;`. -/
def cooldownTick (cd dt : ℚ) : ℚ := if 0 < cd then cd - dt else cd

/-- Horizontal displacement from the player to a block (lines 219-220). -/
def kickToBlock (playerPos : Vec3) (b : Block) : Vec3 :=
  let t := Vector3Subtract b.position playerPos
  ⟨t.x, 0, t.z⟩

/-- Horizontal distance from the player to a block (line 221). -/
def kickDistance (playerPos : Vec3) (b : Block) : ℚ :=
  Vector3Length (kickToBlock playerPos b)

/-- Facing test quantity (lines 225-226): dot product of the player's forward
vector with the normalised horizontal direction to the block. -/
def kickDot (forward playerPos : Vec3) (b : Block) : ℚ :=
  let d := Vector3Normalize (kickToBlock playerPos b)
  forward.x * d.x + forward.z * d.z

/-- Kick applied to one block (lines 218-234): inside range, strictly positive
distance, in the front cone, and non-static; the velocity is overwritten. -/
def kickBlock (forward playerPos : Vec3) (b : Block) : Block :=
  if kickDistance playerPos b ≤ kickRange ∧ 0 < kickDistance playerPos b then
    if 1/2 < kickDot forward playerPos b ∧ b.isStatic = false then
      let d := Vector3Normalize (kickToBlock playerPos b);
      { b with velocity := ⟨d.x * kickForce, kickForce * (1/2), d.z * kickForce⟩ }
    else b
  else b

/-- Kick pass over all blocks (lines 214-236): fires only when the kick key is
pressed and the cooldown is not positive. -/
def kickBlocks (ePressed : Bool) (cd : ℚ) (forward playerPos : Vec3)
    (blocks : List Block) : List Block :=
  if ePressed = true ∧ cd ≤ 0 then blocks.map (kickBlock forward playerPos) else blocks

/-- Cooldown after the kick branch (line 215): a firing kick resets it to 0.5 s. -/
def kickCooldownAfter (ePressed : Bool) (cd : ℚ) : ℚ :=
  if ePressed = true ∧ cd ≤ 0 then 1/2 else cd

/-! Player-versus-block collision resolution (`src/main.cpp` 253-275). -/

/-- Accumulator for the player collision loop: blocks processed so far plus the
live player position and velocity. -/
structure CollideAcc where
  blocks : List Block
  pos : Vec3
  vel : Vec3

/-- One iteration of the collision loop: on overlap with the (fixed) tentative
player box, push a non-static block away from the live player position and
revert the player to the pre-move position with zeroed horizontal velocity. -/
def playerCollideStep (playerBox : BoundingBox) (oldPos : Vec3)
    (acc : CollideAcc) (b : Block) : CollideAcc :=
  if CheckCollisionBoxes playerBox (GetBlockBoundingBox b blockSize) = true then
    let b' :=
      if b.isStatic = false then
        let pushDir : Vec3 := ⟨b.position.x - acc.pos.x, 0, b.position.z - acc.pos.z⟩
        if 0 < Vector3Length pushDir then
          let pd := Vector3Normalize pushDir;
          { b with velocity := ⟨pd.x * pushForce, b.velocity.y, pd.z * pushForce⟩ }
        else b
      else b
    ⟨acc.blocks ++ [b'], oldPos, ⟨0, acc.vel.y, 0⟩⟩
  else ⟨acc.blocks ++ [b], acc.pos, acc.vel⟩

/-- The full collision loop (lines 254-275), folded left over the block list. -/
def playerCollide (playerBox : BoundingBox) (oldPos : Vec3) (blocks : List Block)
    (pos vel : Vec3) : CollideAcc :=
  blocks.foldl (playerCollideStep playerBox oldPos) ⟨[], pos, vel⟩

/-! The Block Physics Engine (`src/main.cpp` 284-349). -/

/-- Block ground collision (lines 300-309): clamp to the floor, zero vertical
velocity, and apply impact damage when the absolute pre-clamp vertical speed
exceeds the damage threshold. -/
def groundCollideBlock (b : Block) : Block :=
  if b.position.y ≤ blockFloorHeight then
    let impactSpeed := |b.velocity.y|;
    { b with
      position := { b.position with y := blockFloorHeight },
      velocity := { b.velocity with y := 0 },
      health := if damageThreshold < impactSpeed then
          b.health - (impactSpeed - damageThreshold) * damageMultiplier
        else b.health }
  else b

/-- One iteration of the pairwise collision scan for block `i` against block
`j` (lines 313-335): on AABB overlap with the (stale) box of block `i`, damage
both blocks when the relative speed exceeds the threshold (the other block only
if non-static), revert block `i` to its pre-integration position and dampen its
horizontal velocity. -/
def innerStep (i : Nat) (oldBlockPos : Vec3) (box1 : BoundingBox)
    (l : List Block) (j : Nat) : List Block :=
  if i = j then l else
  match l[i]?, l[j]? with
  | some bi, some bj =>
    if CheckCollisionBoxes box1 (GetBlockBoundingBox bj blockSize) = true then
      let impactSpeed := Vector3Length (Vector3Subtract bi.velocity bj.velocity)
      let damage := (impactSpeed - damageThreshold) * damageMultiplier
      let bi' := { bi with
        health := if damageThreshold < impactSpeed then bi.health - damage else bi.health,
        position := oldBlockPos,
        velocity := ⟨bi.velocity.x * (-(1/2)), bi.velocity.y, bi.velocity.z * (-(1/2))⟩ }
      let l1 := l.set i bi'
      if damageThreshold < impactSpeed ∧ bj.isStatic = false then
        l1.set j { bj with health := bj.health - damage }
      else l1
    else l
  | _, _ => l

/-- Velocity deadzone (lines 338-340): snap near-zero horizontal components to
exactly zero. -/
def deadzoneBlock (b : Block) : Block :=
  let vx := if |b.velocity.x| < 1/100 then 0 else b.velocity.x
  let vz := if |b.velocity.z| < 1/100 then 0 else b.velocity.z;
  { b with velocity := ⟨vx, b.velocity.y, vz⟩ }

/-- The per-block physics update (lines 285-341, body of the outer loop):
skip static blocks; otherwise apply friction and gravity, integrate, resolve
ground collision, run the pairwise scan, and apply the velocity deadzone. -/
def outerStep (dt : ℚ) (l : List Block) (i : Nat) : List Block :=
  match l[i]? with
  | none => l
  | some bi =>
    if bi.isStatic = true then l
    else
      let v1 : Vec3 := ⟨bi.velocity.x * friction, bi.velocity.y - blockGravity * dt,
        bi.velocity.z * friction⟩
      let oldBlockPos := bi.position
      let b1 := groundCollideBlock
        { bi with velocity := v1, position := Vector3Add oldBlockPos (Vector3Scale v1 dt) }
      let box1 := GetBlockBoundingBox b1 blockSize
      let l1 := l.set i b1
      let l2 := (List.range l.length).foldl (innerStep i oldBlockPos box1) l1
      match l2[i]? with
      | none => l2
      | some bi2 => l2.set i (deadzoneBlock bi2)

/-- The Block Physics Engine pass (lines 285-342): per-block updates in input
order. -/
def blockPhysics (dt : ℚ) (l : List Block) : List Block :=
  (List.range l.length).foldl (outerStep dt) l

/-- One iteration of the prune loop (lines 345-349): erase index `i` of the
current list when its health is not positive. -/
def pruneStep (acc : List Block) (i : Nat) : List Block :=
  match acc[i]? with
  | some b => if b.health ≤ 0 then acc.eraseIdx i else acc
  | none => acc

/-- The prune pass (lines 344-349): reverse-order removal of destroyed blocks. -/
def pruneBlocks (l : List Block) : List Block :=
  ((List.range l.length).reverse).foldl pruneStep l

/-! Edit-mode operations (`src/main.cpp` 383-436). The random palette index is
an input here, as randomness is an external collaborator. -/

/-- The proximity test shared by the three edit operations:
`Vector3Distance(block.position, snappedPos) < 0.1f`. -/
def withinSnap (p : Vec3) (b : Block) : Bool :=
  decide (Vector3Distance b.position p < snapEpsilon)

/-- Add (lines 398-411): append a fresh dynamic block at the snapped position
unless some block already lies within the epsilon of it. -/
def addBlock (l : List Block) (p : Vec3) (c : Color) : List Block :=
  if l.any (withinSnap p) then l
  else l ++ [⟨p, ⟨0, 0, 0⟩, c, false, 100, 100⟩]

/-- Index scanned by the remove operation at position `i` of the current list. -/
def removeHit (l : List Block) (p : Vec3) (i : Nat) : Bool :=
  match l[i]? with
  | some b => withinSnap p b
  | none => false

/-- Remove (lines 414-421): scan indices in reverse insertion order, erase the
first block found within epsilon of the snapped position, then stop. -/
def removeBlock (l : List Block) (p : Vec3) : List Block :=
  match ((List.range l.length).reverse).find? (removeHit l p) with
  | some i => l.eraseIdx i
  | none => l

/-- Toggle applied to the found block (lines 427-432): flip the flag and reset
health and maxHealth to the tier constant of the new state. -/
def toggleBlock (b : Block) : Block :=
  let s := !b.isStatic;
  { b with
    isStatic := s,
    health := if s = true then 1000 else 100,
    maxHealth := if s = true then 1000 else 100 }

/-- Toggle-static (lines 424-436): forward scan, first block within epsilon is
toggled, then the loop breaks. -/
def toggleStatic (p : Vec3) : List Block → List Block
  | [] => []
  | b :: rest =>
    if withinSnap p b = true then toggleBlock b :: rest
    else b :: toggleStatic p rest

/-! Edit-mode mouse picking (`src/main.cpp` 383-395). -/

/-- Ground intersection of the pick ray exactly as the source computes it
(lines 384-389): `t = -ray.position.y / ray.direction.y` with no guard on the
divisor. Over `ℚ` a zero divisor yields `t = 0` by convention; in the source's
IEEE float arithmetic the same expression yields a non-finite value. -/
def pickGroundPoint (rayPos rayDir : Vec3) : Vec3 :=
  let t := -rayPos.y / rayDir.y
  ⟨rayPos.x + rayDir.x * t, 0, rayPos.z + rayDir.z * t⟩

/-- Snap of the picked ground point to the grid (lines 391-395). -/
def snapPosition (g : Vec3) : Vec3 := ⟨(round g.x : ℤ), 1, (round g.z : ℤ)⟩

/-- Modelled from the spec: the guard on a degenerate (horizontal) pick ray is
absent from the source; §7 of the spec requires `direction.y == 0` to be
treated as "no pick" for the frame. This definition follows the spec's words
and is compared against the unguarded source computation `pickGroundPoint`. -/
def pickGroundPointGuarded (rayPos rayDir : Vec3) : Option Vec3 :=
  if rayDir.y = 0 then none else some (pickGroundPoint rayPos rayDir)

/-! One simulated frame in normal mode (`src/main.cpp` 150-357), decomposed
into named phases in the source's execution order. -/

/-- Per-frame inputs consumed by the normal-mode update. -/
structure FrameInput where
  dt : ℚ
  mouseDeltaX : ℚ
  mouseDeltaY : ℚ
  keyW : Bool
  keyS : Bool
  keyA : Bool
  keyD : Bool
  spacePressed : Bool
  ePressed : Bool

/-- The loop-local mutable state of the simulation core. -/
structure SimState where
  cameraYaw : ℚ
  cameraPitch : ℚ
  playerPosition : Vec3
  playerVelocity : Vec3
  isGrounded : Bool
  kickCooldown : ℚ
  blocks : List Block

/-- Yaw after mouse look (line 171). -/
def frameYaw (inp : FrameInput) (s : SimState) : ℚ :=
  s.cameraYaw - inp.mouseDeltaX * mouseSensitivity

/-- Pitch after mouse look and clamping (lines 172-176). -/
def framePitch (inp : FrameInput) (s : SimState) : ℚ :=
  let p := s.cameraPitch - inp.mouseDeltaY * mouseSensitivity
  let p := if 3/2 < p then 3/2 else p
  if p < -(3/2) then -(3/2) else p

/-- Forward vector from yaw (line 179). -/
def frameForward (qsin qcos : ℚ → ℚ) (inp : FrameInput) (s : SimState) : Vec3 :=
  ⟨qsin (frameYaw inp s), 0, qcos (frameYaw inp s)⟩

/-- Right vector from yaw (line 180). -/
def frameRight (qsin qcos : ℚ → ℚ) (inp : FrameInput) (s : SimState) : Vec3 :=
  ⟨qcos (frameYaw inp s), 0, -(qsin (frameYaw inp s))⟩

/-- Movement direction from held keys, normalised when non-zero (lines 183-201). -/
def frameMoveDir (qsin qcos : ℚ → ℚ) (inp : FrameInput) (s : SimState) : Vec3 :=
  let m0 : Vec3 := ⟨0, 0, 0⟩
  let m1 := if inp.keyW = true then Vector3Add m0 (frameForward qsin qcos inp s) else m0
  let m2 := if inp.keyS = true then Vector3Subtract m1 (frameForward qsin qcos inp s) else m1
  let m3 := if inp.keyA = true then Vector3Add m2 (frameRight qsin qcos inp s) else m2
  let m4 := if inp.keyD = true then Vector3Subtract m3 (frameRight qsin qcos inp s) else m3
  if 0 < Vector3Length m4 then Vector3Normalize m4 else m4

/-- Velocity after the movement assignment (lines 204-205): horizontal
components overwritten, vertical preserved. -/
def frameVelMove (qsin qcos : ℚ → ℚ) (inp : FrameInput) (s : SimState) : Vec3 :=
  ⟨(frameMoveDir qsin qcos inp s).x * playerSpeed, s.playerVelocity.y,
   (frameMoveDir qsin qcos inp s).z * playerSpeed⟩

/-- Whether the jump fires this frame (line 208). -/
def frameJumped (inp : FrameInput) (s : SimState) : Bool :=
  inp.spacePressed && s.isGrounded

/-- Grounded flag after the jump branch (lines 208-211). -/
def frameGrounded1 (inp : FrameInput) (s : SimState) : Bool :=
  if frameJumped inp s = true then false else s.isGrounded

/-- Velocity after the jump branch (lines 208-211). -/
def frameVel2 (qsin qcos : ℚ → ℚ) (inp : FrameInput) (s : SimState) : Vec3 :=
  if frameJumped inp s = true then
    ⟨(frameVelMove qsin qcos inp s).x, jumpForce, (frameVelMove qsin qcos inp s).z⟩
  else frameVelMove qsin qcos inp s

/-- Cooldown after the top-of-frame tick (line 154). -/
def frameCd1 (inp : FrameInput) (s : SimState) : ℚ :=
  cooldownTick s.kickCooldown inp.dt

/-- Blocks after the kick branch (lines 214-236). -/
def frameBlocksKicked (qsin qcos : ℚ → ℚ) (inp : FrameInput) (s : SimState) : List Block :=
  kickBlocks inp.ePressed (frameCd1 inp s) (frameForward qsin qcos inp s)
    s.playerPosition s.blocks

/-- Velocity after gravity (lines 239-241): applied only while airborne. -/
def frameVel3 (qsin qcos : ℚ → ℚ) (inp : FrameInput) (s : SimState) : Vec3 :=
  if frameGrounded1 inp s = true then frameVel2 qsin qcos inp s
  else ⟨(frameVel2 qsin qcos inp s).x,
    (frameVel2 qsin qcos inp s).y - gravity * inp.dt,
    (frameVel2 qsin qcos inp s).z⟩

/-- Tentative position after integration (lines 244-248). -/
def framePosIntegrated (qsin qcos : ℚ → ℚ) (inp : FrameInput) (s : SimState) : Vec3 :=
  Vector3Add s.playerPosition (Vector3Scale (frameVel3 qsin qcos inp s) inp.dt)

/-- Result of the player-versus-block collision loop (lines 250-275). -/
def frameCollide (qsin qcos : ℚ → ℚ) (inp : FrameInput) (s : SimState) : CollideAcc :=
  playerCollide
    (GetPlayerBoundingBox (framePosIntegrated qsin qcos inp s) playerSize)
    s.playerPosition (frameBlocksKicked qsin qcos inp s)
    (framePosIntegrated qsin qcos inp s) (frameVel3 qsin qcos inp s)

/-- Player ground clamp, position part (lines 278-282). -/
def clampedPos (pos : Vec3) : Vec3 :=
  if pos.y ≤ groundLevel + playerHeight then ⟨pos.x, groundLevel + playerHeight, pos.z⟩
  else pos

/-- Player ground clamp, velocity part (lines 278-282). -/
def clampedVel (pos vel : Vec3) : Vec3 :=
  if pos.y ≤ groundLevel + playerHeight then ⟨vel.x, 0, vel.z⟩ else vel

/-- Player ground clamp, grounded-flag part (lines 278-282). -/
def clampedGrounded (pos : Vec3) (g : Bool) : Bool :=
  if pos.y ≤ groundLevel + playerHeight then true else g

/-- One full simulated frame in normal (running) mode: cooldown tick, mouse
look, movement, jump, kick, gravity, integration, player collision, player
ground clamp, block physics, prune. -/
def normalFrame (qsin qcos : ℚ → ℚ) (inp : FrameInput) (s : SimState) : SimState :=
  let c := frameCollide qsin qcos inp s;
  { cameraYaw := frameYaw inp s
    cameraPitch := framePitch inp s
    playerPosition := clampedPos c.pos
    playerVelocity := clampedVel c.pos c.vel
    isGrounded := clampedGrounded c.pos (frameGrounded1 inp s)
    kickCooldown := kickCooldownAfter inp.ePressed (frameCd1 inp s)
    blocks := pruneBlocks (blockPhysics inp.dt c.blocks) }

/-! Auxiliary definitions used only to state and prove the theorems below. -/

/-- A sample dynamic block sitting on the grid, used in concrete statements. -/
def cxBlock : Block := ⟨⟨0, 1, 0⟩, ⟨0, 0, 0⟩, 0, false, 100, 100⟩

/-- Relation between a snapshot `l0` of the block list and a later list `l`:
every index has the same static flag as in `l0`, and every entry that was
static in `l0` is still present there unchanged. -/
def StaticPreserved (l0 l : List Block) : Prop :=
  (∀ k : Nat, (l[k]?).map Block.isStatic = (l0[k]?).map Block.isStatic)
  ∧ (∀ (k : Nat) (b0 : Block), l0[k]? = some b0 → b0.isStatic = true → l[k]? = some b0)

/-! Theorems. General facts about the square-root model and small list
infrastructure come first, then the per-claim results. -/

theorem natSqrt_pos : ∀ {n : Nat}, 0 < n → 0 < natSqrt n
  | 0, h => absurd h (by decide)
  | n + 1, _ => by
    cases n with
    | zero => decide
    | succ m =>
      show 0 < natSqrt (m + 2)
      unfold natSqrt
      dsimp only
      split
      · omega
      · exact natSqrt_pos (Nat.succ_pos m)

theorem ratSqrt_nonneg (q : ℚ) : 0 ≤ ratSqrt q := by
  unfold ratSqrt
  positivity

theorem ratSqrt_pos {q : ℚ} (h : 0 < q) : 0 < ratSqrt q := by
  have hnum : 0 < q.num := Rat.num_pos.mpr h
  have hnum' : 0 < q.num.toNat := by omega
  have hden : 0 < q.den := q.den_pos
  unfold ratSqrt
  apply div_pos
  · exact_mod_cast natSqrt_pos hnum'
  · exact_mod_cast natSqrt_pos hden

theorem ratSqrt_zero : ratSqrt 0 = 0 := by
  norm_num [ratSqrt, natSqrt]

theorem Vector3Distance_self (v : Vec3) : Vector3Distance v v = 0 := by
  simp [Vector3Distance, Vector3Subtract, Vector3Length, ratSqrt_zero]

theorem withinSnap_self_pos (p : Vec3) (b : Block) (h : b.position = p) :
    withinSnap p b = true := by
  simp [withinSnap, h, Vector3Distance_self, snapEpsilon]

theorem foldl_invariant {α β : Type} (P : β → Prop) (f : β → α → β)
    (hf : ∀ b a, P b → P (f b a)) : ∀ (l : List α) (b : β), P b → P (l.foldl f b) := by
  intro l
  induction l with
  | nil => intro b hb; simpa using hb
  | cons a rest ih =>
    intro b hb
    rw [List.foldl_cons]
    exact ih (f b a) (hf b a hb)

theorem pruneFold_take_drop :
    ∀ (k : Nat) (l : List Block), k ≤ l.length →
      ((List.range k).reverse).foldl pruneStep l
        = (l.take k).filter (fun b => !decide (b.health ≤ 0)) ++ l.drop k := by
  intro k
  induction k with
  | zero => intro l _; simp
  | succ k ih =>
    intro l hk
    have hk' : k < l.length := hk
    have hb : l[k]? = some (l[k]) := by simp
    rw [List.range_succ, List.reverse_append, List.reverse_singleton,
      List.singleton_append, List.foldl_cons]
    have htake : l.take (k + 1) = l.take k ++ [l[k]] := by
      rw [List.take_succ, hb]
      rfl
    by_cases hh : (l[k]).health ≤ 0
    · have hstep : pruneStep l k = l.eraseIdx k := by
        simp [pruneStep, hb, hh]
      rw [hstep, List.eraseIdx_eq_take_drop_succ]
      have hlen : (l.take k).length = k := by
        simp [List.length_take, Nat.min_eq_left (Nat.le_of_lt hk')]
      have hlen2 : k ≤ (l.take k ++ l.drop (k + 1)).length := by
        simp [hlen]
      rw [ih _ hlen2, List.take_left' hlen, List.drop_left' hlen, htake,
        List.filter_append]
      simp [List.filter, hh]
    · have hstep : pruneStep l k = l := by
        simp [pruneStep, hb, hh]
      rw [hstep, ih _ (Nat.le_of_lt hk'), htake, List.filter_append]
      have hdrop : l.drop k = l[k] :: l.drop (k + 1) :=
        List.drop_eq_getElem_cons hk'
      rw [hdrop]
      simp [List.filter, hh]

theorem pruneBlocks_eq_filter (l : List Block) :
    pruneBlocks l = l.filter (fun b => !decide (b.health ≤ 0)) := by
  unfold pruneBlocks
  rw [pruneFold_take_drop l.length l (le_refl _)]
  simp

/-- Claim C7: after the prune pass no block with `health ≤ 0` remains, every
block with positive health is retained (the pass is exactly the filter by
`¬(health ≤ 0)`), and the destruction condition is `health ≤ 0` — negative
values included — not `health = 0`. -/
theorem prune_pass_exact (l : List Block) :
    pruneBlocks l = l.filter (fun b => !decide (b.health ≤ 0))
    ∧ (∀ b ∈ pruneBlocks l, 0 < b.health)
    ∧ (∀ b ∈ l, 0 < b.health → b ∈ pruneBlocks l) := by
  refine ⟨pruneBlocks_eq_filter l, ?_, ?_⟩
  · intro b hb
    rw [pruneBlocks_eq_filter] at hb
    have h2 := (List.mem_filter.mp hb).2
    simp only [Bool.not_eq_eq_eq_not, Bool.not_true, decide_eq_false_iff_not,
      not_le] at h2
    exact h2
  · intro b hb hpos
    rw [pruneBlocks_eq_filter]
    refine List.mem_filter.mpr ⟨hb, ?_⟩
    simp only [Bool.not_eq_eq_eq_not, Bool.not_true, decide_eq_false_iff_not, not_le]
    exact hpos

/-- Witness for C7 at a concrete two-block list: the damaged block with
negative health is pruned while the healthy one survives. -/
theorem prune_pass_exact_witness :
    cxBlock ∈ [cxBlock, { cxBlock with health := -5 }]
    ∧ (0:ℚ) < cxBlock.health
    ∧ cxBlock ∈ pruneBlocks [cxBlock, { cxBlock with health := -5 }] := by
  refine ⟨by simp, by norm_num [cxBlock], ?_⟩
  exact (prune_pass_exact [cxBlock, { cxBlock with health := -5 }]).2.2 cxBlock
    (by simp) (by norm_num [cxBlock])

theorem find?_range_reverse_eq_some {n k : Nat} {f : Nat → Bool} (hk : k < n)
    (hf : f k = true) (hmax : ∀ j, k < j → j < n → f j = false) :
    ((List.range n).reverse).find? f = some k := by
  induction n with
  | zero => omega
  | succ n ih =>
    rw [List.range_succ, List.reverse_append, List.reverse_singleton,
      List.singleton_append]
    by_cases hkn : k = n
    · subst hkn
      exact List.find?_cons_of_pos _ hf
    · have hlt : k < n := by omega
      rw [List.find?_cons_of_neg _ (by simp [hmax n (by omega) (by omega)])]
      exact ih hlt fun j hj hjn => hmax j hj (by omega)

/-- Claim C8: remove on an empty list, or with no block within epsilon of the
snapped position, is a no-op; when a match exists exactly one block is
deleted, namely the first match scanning indices in reverse insertion order
(the greatest matching index). -/
theorem remove_noop_or_single_delete (l : List Block) (p : Vec3) :
    removeBlock [] p = []
    ∧ ((∀ b ∈ l, withinSnap p b = false) → removeBlock l p = l)
    ∧ (∀ (k : Nat) (b : Block), l[k]? = some b → withinSnap p b = true →
        (∀ (j : Nat) (b' : Block), k < j → l[j]? = some b' → withinSnap p b' = false) →
        removeBlock l p = l.eraseIdx k ∧ (removeBlock l p).length + 1 = l.length) := by
  refine ⟨rfl, ?_, ?_⟩
  · intro hnone
    have hfind : ((List.range l.length).reverse).find? (removeHit l p) = none := by
      rw [List.find?_eq_none]
      intro i _
      unfold removeHit
      cases hb : l[i]? with
      | none => simp
      | some b => simp [hnone b (List.getElem?_mem hb)]
    unfold removeBlock
    rw [hfind]
  · intro k b hb hwithin hmax
    have hk : k < l.length := (List.getElem?_eq_some_iff.mp hb).1
    have hfind : ((List.range l.length).reverse).find? (removeHit l p) = some k := by
      apply find?_range_reverse_eq_some hk
      · unfold removeHit
        rw [hb]
        exact hwithin
      · intro j hj hjn
        unfold removeHit
        cases hb' : l[j]? with
        | none => simp
        | some b' => simp [hmax j b' hj hb']
    have hrem : removeBlock l p = l.eraseIdx k := by
      unfold removeBlock
      rw [hfind]
    refine ⟨hrem, ?_⟩
    rw [hrem, List.length_eraseIdx_of_lt hk]
    omega

/-- Witness for C8 at a concrete two-block list with both blocks at the snapped
position: the reverse scan deletes exactly the later one (index 1). -/
theorem remove_noop_or_single_delete_witness :
    [cxBlock, { cxBlock with health := 50 }][1]? = some { cxBlock with health := 50 }
    ∧ withinSnap ⟨0, 1, 0⟩ { cxBlock with health := 50 } = true
    ∧ removeBlock [cxBlock, { cxBlock with health := 50 }] ⟨0, 1, 0⟩
        = [cxBlock, { cxBlock with health := 50 }].eraseIdx 1 := by
  have h1 : [cxBlock, { cxBlock with health := 50 }][1]?
      = some { cxBlock with health := 50 } := rfl
  have h2 : withinSnap ⟨0, 1, 0⟩ { cxBlock with health := 50 } = true :=
    withinSnap_self_pos _ _ rfl
  have h3 : ∀ (j : Nat) (b' : Block), 1 < j →
      [cxBlock, { cxBlock with health := 50 }][j]? = some b' →
      withinSnap ⟨0, 1, 0⟩ b' = false := by
    intro j b' hj hb'
    rw [List.getElem?_eq_none (by simpa using hj)] at hb'
    cases hb'
  exact ⟨h1, h2,
    ((remove_noop_or_single_delete [cxBlock, { cxBlock with health := 50 }]
      ⟨0, 1, 0⟩).2.2 1 _ h1 h2 h3).1⟩

/-- Claim C5: adding at a snapped position already occupied within epsilon is a
no-op, add-twice equals add-once, and starting from a cell with no block within
epsilon two adds leave exactly one block within epsilon of that position. -/
theorem addBlock_idempotent_cell (l : List Block) (p : Vec3) (c₁ c₂ : Color) :
    addBlock (addBlock l p c₁) p c₂ = addBlock l p c₁
    ∧ ((∃ b ∈ l, withinSnap p b = true) → addBlock l p c₁ = l)
    ∧ ((∀ b ∈ l, withinSnap p b = false) →
        (addBlock (addBlock l p c₁) p c₂).countP (withinSnap p) = 1) := by
  by_cases h : l.any (withinSnap p) = true
  · have h1 : addBlock l p c₁ = l := by
      unfold addBlock
      rw [if_pos h]
    refine ⟨?_, fun _ => h1, ?_⟩
    · rw [h1]
      unfold addBlock
      rw [if_pos h]
    · intro hnone
      exfalso
      obtain ⟨b, hb, hw⟩ := List.any_eq_true.mp h
      rw [hnone b hb] at hw
      cases hw
  · have h1 : addBlock l p c₁ = l ++ [⟨p, ⟨0, 0, 0⟩, c₁, false, 100, 100⟩] := by
      unfold addBlock
      rw [if_neg h]
    have hnew : withinSnap p (⟨p, ⟨0, 0, 0⟩, c₁, false, 100, 100⟩ : Block) = true :=
      withinSnap_self_pos _ _ rfl
    have hany2 : (l ++ [(⟨p, ⟨0, 0, 0⟩, c₁, false, 100, 100⟩ : Block)]).any
        (withinSnap p) = true := by
      simp [hnew]
    have h2 : addBlock (addBlock l p c₁) p c₂ = addBlock l p c₁ := by
      rw [h1]
      unfold addBlock
      rw [if_pos hany2]
    refine ⟨h2, ?_, ?_⟩
    · intro ⟨b, hb, hw⟩
      exact absurd (List.any_eq_true.mpr ⟨b, hb, hw⟩) h
    · intro hnone
      rw [h2, h1, List.countP_append]
      have hcount0 : l.countP (withinSnap p) = 0 :=
        List.countP_eq_zero.mpr fun b hb => by simp [hnone b hb]
      simp [hcount0, List.countP_cons, hnew]

/-- Witness for C5: two adds into an empty world leave exactly one block within
epsilon of the snapped position, and add-twice equals add-once. -/
theorem addBlock_idempotent_cell_witness :
    (addBlock (addBlock [] ⟨3, 1, -2⟩ 4) ⟨3, 1, -2⟩ 7).countP (withinSnap ⟨3, 1, -2⟩) = 1
    ∧ addBlock (addBlock [] ⟨3, 1, -2⟩ 4) ⟨3, 1, -2⟩ 7 = addBlock [] ⟨3, 1, -2⟩ 4 := by
  refine ⟨(addBlock_idempotent_cell [] ⟨3, 1, -2⟩ 4 7).2.2 (by simp), ?_⟩
  exact (addBlock_idempotent_cell [] ⟨3, 1, -2⟩ 4 7).1

/-- Counterexample to claim C6 as stated: with two blocks both lying within
epsilon of the snapped position, the toggle operation flips only the first one
(the source loop breaks after its first hit), so it is not the case that every
block within epsilon has its `isStatic` flag flipped. -/
theorem toggle_every_match_counterexample :
    ¬ (∀ (l : List Block) (p : Vec3) (i : Nat) (b : Block),
        l[i]? = some b → withinSnap p b = true →
        ∃ b', (toggleStatic p l)[i]? = some b' ∧ b'.isStatic = !b.isStatic) := by
  intro h
  have hw : withinSnap ⟨0, 1, 0⟩ cxBlock = true := withinSnap_self_pos _ _ rfl
  have hcalc : toggleStatic ⟨0, 1, 0⟩ [cxBlock, cxBlock]
      = [toggleBlock cxBlock, cxBlock] := by
    simp [toggleStatic, hw]
  obtain ⟨b', hb', hflip⟩ := h [cxBlock, cxBlock] ⟨0, 1, 0⟩ 1 cxBlock rfl hw
  rw [hcalc] at hb'
  have hb'' : b' = cxBlock := by
    have := hb'
    simp at this
    exact this.symm
  rw [hb''] at hflip
  simp [cxBlock] at hflip

/-- Claim C6, amended: the toggle-static operation acts on the FIRST block (in
insertion order) within epsilon of the snapped position only: that block's
`isStatic` flag is flipped and its health and maxHealth are both reset to the
1000 tier when it becomes static or the 100 tier when it becomes dynamic,
regardless of prior health; every other block is unchanged, and with no block
within epsilon the operation is a no-op. -/
theorem toggle_first_match_resets (p : Vec3) :
    (∀ l : List Block, (∀ b ∈ l, withinSnap p b = false) → toggleStatic p l = l)
    ∧ (∀ (l : List Block) (k : Nat) (b : Block), l[k]? = some b →
        withinSnap p b = true →
        (∀ (j : Nat) (b' : Block), j < k → l[j]? = some b' → withinSnap p b' = false) →
        toggleStatic p l = l.set k (toggleBlock b))
    ∧ (∀ b : Block, (toggleBlock b).isStatic = !b.isStatic
        ∧ (toggleBlock b).health = (if b.isStatic = false then (1000 : ℚ) else 100)
        ∧ (toggleBlock b).maxHealth = (if b.isStatic = false then (1000 : ℚ) else 100)) := by
  refine ⟨?_, ?_, ?_⟩
  · intro l
    induction l with
    | nil => intro _; rfl
    | cons hd tl ih =>
      intro hnone
      have hhd : withinSnap p hd = false := hnone hd (by simp)
      simp only [toggleStatic, hhd]
      rw [ih fun b hb => hnone b (by simp [hb])]
      simp
  · intro l
    induction l with
    | nil => intro k b hb; cases hb
    | cons hd tl ih =>
      intro k b hb hwithin hmax
      cases k with
      | zero =>
        have hbd : hd = b := by simpa using hb
        subst hbd
        simp only [toggleStatic, hwithin]
        simp
      | succ k =>
        have hhd : withinSnap p hd = false := hmax 0 hd (Nat.succ_pos k) (by simp)
        have hb' : tl[k]? = some b := by simpa using hb
        have hmax' : ∀ (j : Nat) (b' : Block), j < k → tl[j]? = some b' →
            withinSnap p b' = false := by
          intro j b' hj hjb
          exact hmax (j + 1) b' (by omega) (by simpa using hjb)
        simp only [toggleStatic, hhd]
        rw [ih k b hb' hwithin hmax']
        simp
  · intro b
    cases hb : b.isStatic <;> simp [toggleBlock, hb]

/-- Witness for C6's amended theorem: toggling at a cell occupied by a damaged
dynamic block replaces it with a static block at full static-tier health. -/
theorem toggle_first_match_resets_witness :
    [{ cxBlock with health := 37 }][0]? = some { cxBlock with health := 37 }
    ∧ withinSnap ⟨0, 1, 0⟩ { cxBlock with health := 37 } = true
    ∧ toggleStatic ⟨0, 1, 0⟩ [{ cxBlock with health := 37 }]
        = [{ cxBlock with health := 37 }].set 0 (toggleBlock { cxBlock with health := 37 }) := by
  have h1 : [{ cxBlock with health := 37 }][0]? = some { cxBlock with health := 37 } := rfl
  have h2 : withinSnap ⟨0, 1, 0⟩ { cxBlock with health := 37 } = true :=
    withinSnap_self_pos _ _ rfl
  have h3 : ∀ (j : Nat) (b' : Block), j < 0 →
      [{ cxBlock with health := 37 }][j]? = some b' → withinSnap ⟨0, 1, 0⟩ b' = false := by
    intro j b' hj
    omega
  exact ⟨h1, h2,
    (toggle_first_match_resets ⟨0, 1, 0⟩).2.1 [{ cxBlock with health := 37 }] 0 _ h1 h2 h3⟩

/-- Claim C10 (code bug in the source): the pick-ray ground intersection
`t = -ray.position.y / ray.direction.y` has NO guard against `direction.y = 0`.
At the horizontal ray below (position `(0,30,0)`, direction `(1,0,0)`) the
source divides by zero — non-finite in its IEEE float arithmetic, collapsed to
`t = 0` by the `ℚ` division-by-zero convention of this model — and still
produces a snapped placement cell, whereas the spec-mandated guarded variant
(`pickGroundPointGuarded`, modelled from the spec) reports "no pick". -/
theorem pick_ray_degenerate_unguarded :
    (⟨(1 : ℚ), 0, 0⟩ : Vec3).y = 0
    ∧ pickGroundPoint ⟨0, 30, 0⟩ ⟨1, 0, 0⟩ = ⟨0, 0, 0⟩
    ∧ snapPosition (pickGroundPoint ⟨0, 30, 0⟩ ⟨1, 0, 0⟩) = ⟨0, 1, 0⟩
    ∧ pickGroundPointGuarded ⟨0, 30, 0⟩ ⟨1, 0, 0⟩ = none := by
  have hgp : pickGroundPoint ⟨0, 30, 0⟩ ⟨1, 0, 0⟩ = ⟨0, 0, 0⟩ := by
    simp [pickGroundPoint]
  refine ⟨rfl, hgp, ?_, ?_⟩
  · rw [hgp]
    simp [snapPosition]
  · simp [pickGroundPointGuarded]

/-- Claim C1: for a block ground impact, health changes exactly when the
computed impact speed (the absolute pre-clamp vertical speed) exceeds the
damage threshold, and then by exactly `(impactSpeed - threshold) * multiplier`;
for a block-block overlap, the same holds of the relative-velocity magnitude
for the block being updated, and for the other block additionally only when it
is non-static. Below the threshold health is unchanged. -/
theorem impact_damage_exact (b : Block) (i j : Nat) (oldPos : Vec3)
    (box1 : BoundingBox) (l : List Block) (bi bj : Block)
    (hij : i ≠ j) (hi : l[i]? = some bi) (hj : l[j]? = some bj)
    (hov : CheckCollisionBoxes box1 (GetBlockBoundingBox bj blockSize) = true) :
    (b.position.y ≤ blockFloorHeight →
      (groundCollideBlock b).health =
        (if damageThreshold < |b.velocity.y| then
          b.health - (|b.velocity.y| - damageThreshold) * damageMultiplier
        else b.health))
    ∧ ((innerStep i oldPos box1 l j)[i]?.map Block.health
        = some (if damageThreshold < Vector3Length (Vector3Subtract bi.velocity bj.velocity) then
            bi.health - (Vector3Length (Vector3Subtract bi.velocity bj.velocity)
              - damageThreshold) * damageMultiplier
          else bi.health))
    ∧ ((innerStep i oldPos box1 l j)[j]?.map Block.health
        = some (if damageThreshold < Vector3Length (Vector3Subtract bi.velocity bj.velocity)
              ∧ bj.isStatic = false then
            bj.health - (Vector3Length (Vector3Subtract bi.velocity bj.velocity)
              - damageThreshold) * damageMultiplier
          else bj.health)) := by
  have hilen : i < l.length := (List.getElem?_eq_some_iff.mp hi).1
  have hjlen : j < l.length := (List.getElem?_eq_some_iff.mp hj).1
  have hstep : innerStep i oldPos box1 l j =
      (if damageThreshold < Vector3Length (Vector3Subtract bi.velocity bj.velocity)
          ∧ bj.isStatic = false then
        (l.set i { bi with
          health := if damageThreshold <
              Vector3Length (Vector3Subtract bi.velocity bj.velocity) then
              bi.health - (Vector3Length (Vector3Subtract bi.velocity bj.velocity)
                - damageThreshold) * damageMultiplier
            else bi.health,
          position := oldPos,
          velocity := ⟨bi.velocity.x * (-(1/2)), bi.velocity.y, bi.velocity.z * (-(1/2))⟩ }).set j
          { bj with health := bj.health -
              (Vector3Length (Vector3Subtract bi.velocity bj.velocity)
                - damageThreshold) * damageMultiplier }
      else
        l.set i { bi with
          health := if damageThreshold <
              Vector3Length (Vector3Subtract bi.velocity bj.velocity) then
              bi.health - (Vector3Length (Vector3Subtract bi.velocity bj.velocity)
                - damageThreshold) * damageMultiplier
            else bi.health,
          position := oldPos,
          velocity := ⟨bi.velocity.x * (-(1/2)), bi.velocity.y, bi.velocity.z * (-(1/2))⟩ }) := by
    unfold innerStep
    rw [if_neg hij, hi, hj]
    simp only [hov, if_true]
  refine ⟨?_, ?_, ?_⟩
  · intro hy
    unfold groundCollideBlock
    rw [if_pos hy]
  · rw [hstep]
    by_cases hc : damageThreshold < Vector3Length (Vector3Subtract bi.velocity bj.velocity)
        ∧ bj.isStatic = false
    · rw [if_pos hc, List.getElem?_set_ne (Ne.symm hij),
        List.getElem?_set_self hilen]
      rfl
    · rw [if_neg hc, List.getElem?_set_self hilen]
      rfl
  · rw [hstep]
    by_cases hc : damageThreshold < Vector3Length (Vector3Subtract bi.velocity bj.velocity)
        ∧ bj.isStatic = false
    · rw [if_pos hc, List.getElem?_set_self (by simpa using hjlen), if_pos hc]
      rfl
    · rw [if_neg hc, List.getElem?_set_ne hij, hj, if_neg hc]
      rfl

/-- Witness for C1: two overlapping dynamic blocks with relative speed 5
(above the threshold 3), plus a ground impact at downward speed 5. -/
theorem impact_damage_exact_witness :
    ((0 : Nat) ≠ 1)
    ∧ [{ cxBlock with velocity := ⟨5, 0, 0⟩ }, cxBlock][0]?
        = some { cxBlock with velocity := ⟨5, 0, 0⟩ }
    ∧ [{ cxBlock with velocity := ⟨5, 0, 0⟩ }, cxBlock][1]? = some cxBlock
    ∧ CheckCollisionBoxes (GetBlockBoundingBox cxBlock blockSize)
        (GetBlockBoundingBox cxBlock blockSize) = true
    ∧ ({ cxBlock with position := ⟨0, 1/2, 0⟩, velocity := ⟨0, -5, 0⟩ } : Block).position.y
        ≤ blockFloorHeight
    ∧ (groundCollideBlock { cxBlock with position := ⟨0, 1/2, 0⟩, velocity := ⟨0, -5, 0⟩ }).health
        = (if damageThreshold <
            |({ cxBlock with position := ⟨0, 1/2, 0⟩, velocity := ⟨0, -5, 0⟩ } : Block).velocity.y| then
            ({ cxBlock with position := ⟨0, 1/2, 0⟩, velocity := ⟨0, -5, 0⟩ } : Block).health
              - (|({ cxBlock with position := ⟨0, 1/2, 0⟩, velocity := ⟨0, -5, 0⟩ } : Block).velocity.y|
                - damageThreshold) * damageMultiplier
          else ({ cxBlock with position := ⟨0, 1/2, 0⟩, velocity := ⟨0, -5, 0⟩ } : Block).health) := by
  have hij : (0 : Nat) ≠ 1 := by decide
  have h0 : [{ cxBlock with velocity := ⟨5, 0, 0⟩ }, cxBlock][0]?
      = some { cxBlock with velocity := ⟨5, 0, 0⟩ } := rfl
  have h1 : [{ cxBlock with velocity := ⟨5, 0, 0⟩ }, cxBlock][1]? = some cxBlock := rfl
  have hov : CheckCollisionBoxes (GetBlockBoundingBox cxBlock blockSize)
      (GetBlockBoundingBox cxBlock blockSize) = true := by
    simp only [CheckCollisionBoxes, GetBlockBoundingBox, blockSize, cxBlock,
      Bool.and_eq_true, decide_eq_true_eq]
    norm_num
  have hy : ({ cxBlock with position := ⟨0, 1/2, 0⟩, velocity := ⟨0, -5, 0⟩ } : Block).position.y
      ≤ blockFloorHeight := by
    norm_num [cxBlock, blockFloorHeight]
  exact ⟨hij, h0, h1, hov, hy,
    (impact_damage_exact { cxBlock with position := ⟨0, 1/2, 0⟩, velocity := ⟨0, -5, 0⟩ }
      0 1 ⟨0, 1, 0⟩ (GetBlockBoundingBox cxBlock blockSize)
      [{ cxBlock with velocity := ⟨5, 0, 0⟩ }, cxBlock]
      { cxBlock with velocity := ⟨5, 0, 0⟩ } cxBlock hij h0 h1 hov).1 hy⟩

/-- Claim C3: the kick leaves a block's velocity unchanged whenever the
computed horizontal distance exceeds `kickRange`, or the facing dot product is
at most 1/2, or the block is static; otherwise it overwrites the velocity with
the normalised horizontal direction times `kickForce` plus the fixed upward
component `kickForce * 0.5`. -/
theorem kick_gate_and_impulse (forward playerPos : Vec3) (b : Block) :
    ((kickRange < kickDistance playerPos b ∨ kickDot forward playerPos b ≤ 1/2
        ∨ b.isStatic = true) →
      (kickBlock forward playerPos b).velocity = b.velocity)
    ∧ ((kickDistance playerPos b ≤ kickRange ∧ 1/2 < kickDot forward playerPos b
        ∧ b.isStatic = false) →
      (kickBlock forward playerPos b).velocity =
        ⟨(Vector3Normalize (kickToBlock playerPos b)).x * kickForce,
         kickForce * (1/2),
         (Vector3Normalize (kickToBlock playerPos b)).z * kickForce⟩) := by
  constructor
  · intro h
    unfold kickBlock
    by_cases h1 : kickDistance playerPos b ≤ kickRange ∧ 0 < kickDistance playerPos b
    · rw [if_pos h1]
      by_cases h2 : 1/2 < kickDot forward playerPos b ∧ b.isStatic = false
      · exfalso
        rcases h with h | h | h
        · exact absurd h1.1 (not_le.mpr h)
        · exact absurd h2.1 (not_lt.mpr h)
        · rw [h] at h2
          cases h2.2
      · rw [if_neg h2]
    · rw [if_neg h1]
  · rintro ⟨hr, hdot, hst⟩
    have hnn := ratSqrt_nonneg ((kickToBlock playerPos b).x * (kickToBlock playerPos b).x
      + (kickToBlock playerPos b).y * (kickToBlock playerPos b).y
      + (kickToBlock playerPos b).z * (kickToBlock playerPos b).z)
    have hdist : kickDistance playerPos b
        = ratSqrt ((kickToBlock playerPos b).x * (kickToBlock playerPos b).x
          + (kickToBlock playerPos b).y * (kickToBlock playerPos b).y
          + (kickToBlock playerPos b).z * (kickToBlock playerPos b).z) := rfl
    have hpos : 0 < kickDistance playerPos b := by
      rcases lt_or_eq_of_le hnn with h0 | h0
      · rw [hdist]
        exact h0
      · exfalso
        have hqle : ¬ 0 < ((kickToBlock playerPos b).x * (kickToBlock playerPos b).x
            + (kickToBlock playerPos b).y * (kickToBlock playerPos b).y
            + (kickToBlock playerPos b).z * (kickToBlock playerPos b).z) := by
          intro hq
          have := ratSqrt_pos hq
          linarith
        have hqeq : ((kickToBlock playerPos b).x * (kickToBlock playerPos b).x
            + (kickToBlock playerPos b).y * (kickToBlock playerPos b).y
            + (kickToBlock playerPos b).z * (kickToBlock playerPos b).z) = 0 := by
          have hge : 0 ≤ ((kickToBlock playerPos b).x * (kickToBlock playerPos b).x
              + (kickToBlock playerPos b).y * (kickToBlock playerPos b).y
              + (kickToBlock playerPos b).z * (kickToBlock playerPos b).z) :=
            add_nonneg (add_nonneg (mul_self_nonneg _) (mul_self_nonneg _))
              (mul_self_nonneg _)
          rcases lt_or_eq_of_le hge with hlt | heq
          · exact absurd hlt hqle
          · exact heq.symm
        have hxx : (kickToBlock playerPos b).x * (kickToBlock playerPos b).x = 0 := by
          nlinarith [mul_self_nonneg (kickToBlock playerPos b).x,
            mul_self_nonneg (kickToBlock playerPos b).y,
            mul_self_nonneg (kickToBlock playerPos b).z]
        have hzz : (kickToBlock playerPos b).z * (kickToBlock playerPos b).z = 0 := by
          nlinarith [mul_self_nonneg (kickToBlock playerPos b).x,
            mul_self_nonneg (kickToBlock playerPos b).y,
            mul_self_nonneg (kickToBlock playerPos b).z]
        have hx : (kickToBlock playerPos b).x = 0 := mul_self_eq_zero.mp hxx
        have hz : (kickToBlock playerPos b).z = 0 := mul_self_eq_zero.mp hzz
        have hdot0 : kickDot forward playerPos b = 0 := by
          simp [kickDot, Vector3Normalize, hx, hz]
        rw [hdot0] at hdot
        norm_num at hdot
    unfold kickBlock
    rw [if_pos ⟨hr, hpos⟩, if_pos ⟨hdot, hst⟩]

/-- Witness for C3: the player at the origin facing `+x` kicks a dynamic block
two units ahead; the kick is in range and in the front cone, so the velocity is
overwritten with the impulse. -/
theorem kick_gate_and_impulse_witness :
    (kickDistance ⟨0, 2, 0⟩ { cxBlock with position := ⟨2, 1, 0⟩ } ≤ kickRange
      ∧ 1/2 < kickDot ⟨1, 0, 0⟩ ⟨0, 2, 0⟩ { cxBlock with position := ⟨2, 1, 0⟩ }
      ∧ ({ cxBlock with position := ⟨2, 1, 0⟩ } : Block).isStatic = false)
    ∧ (kickBlock ⟨1, 0, 0⟩ ⟨0, 2, 0⟩ { cxBlock with position := ⟨2, 1, 0⟩ }).velocity =
        ⟨(Vector3Normalize (kickToBlock ⟨0, 2, 0⟩ { cxBlock with position := ⟨2, 1, 0⟩ })).x * kickForce,
         kickForce * (1/2),
         (Vector3Normalize (kickToBlock ⟨0, 2, 0⟩ { cxBlock with position := ⟨2, 1, 0⟩ })).z * kickForce⟩ := by
  have hsq : ratSqrt 4 = 2 := by
    rw [ratSqrt, show ((4 : ℚ)).num.toNat = 4 from rfl, show ((4 : ℚ)).den = 1 from rfl,
      show natSqrt 4 = 2 from by decide, show natSqrt 1 = 1 from rfl]
    norm_num
  have hlen : kickDistance ⟨0, 2, 0⟩ { cxBlock with position := ⟨2, 1, 0⟩ } = 2 := by
    rw [show kickDistance ⟨0, 2, 0⟩ { cxBlock with position := ⟨2, 1, 0⟩ }
      = ratSqrt ((2 - 0) * (2 - 0) + 0 * 0 + (0 - 0) * (0 - 0)) from rfl]
    norm_num [hsq]
  have hdotv : kickDot ⟨1, 0, 0⟩ ⟨0, 2, 0⟩ { cxBlock with position := ⟨2, 1, 0⟩ } = 1 := by
    have hl : Vector3Length (kickToBlock ⟨0, 2, 0⟩ { cxBlock with position := ⟨2, 1, 0⟩ }) = 2 :=
      hlen
    rw [kickDot, Vector3Normalize, hl]
    norm_num [kickToBlock, Vector3Subtract, cxBlock]
  have hyp : kickDistance ⟨0, 2, 0⟩ { cxBlock with position := ⟨2, 1, 0⟩ } ≤ kickRange
      ∧ 1/2 < kickDot ⟨1, 0, 0⟩ ⟨0, 2, 0⟩ { cxBlock with position := ⟨2, 1, 0⟩ }
      ∧ ({ cxBlock with position := ⟨2, 1, 0⟩ } : Block).isStatic = false := by
    refine ⟨?_, ?_, rfl⟩
    · rw [hlen]
      norm_num [kickRange]
    · rw [hdotv]
      norm_num
  exact ⟨hyp, (kick_gate_and_impulse ⟨1, 0, 0⟩ ⟨0, 2, 0⟩
    { cxBlock with position := ⟨2, 1, 0⟩ }).2 hyp⟩

theorem cooldownFold_pos : ∀ (dts : List ℚ) (c : ℚ), 0 < c → dts.sum < c →
    (∀ d ∈ dts, 0 ≤ d) → 0 < dts.foldl cooldownTick c := by
  intro dts
  induction dts with
  | nil => intro c hc _ _; simpa using hc
  | cons d rest ih =>
    intro c hc hsum hnn
    rw [List.foldl_cons]
    have hrest : 0 ≤ rest.sum := List.sum_nonneg fun x hx => hnn x (by simp [hx])
    have hd : 0 ≤ d := hnn d (by simp)
    have hsum' : d + rest.sum < c := by
      simpa [List.sum_cons] using hsum
    have ht : cooldownTick c d = c - d := by
      unfold cooldownTick
      rw [if_pos hc]
    rw [ht]
    exact ih (c - d) (by linarith) (by linarith) fun x hx => hnn x (by simp [hx])

/-- Claim C9: with a positive cooldown a pressed kick changes no block (and the
cooldown is not reset); a kick firing with non-positive cooldown resets it to
0.5 s; the cooldown ticks down by the elapsed time while positive, so along any
frame sequence whose total elapsed time is under 0.5 s the cooldown stays
positive at every kick check and no kick can fire. -/
theorem kick_cooldown_rules (e : Bool) (cd dt : ℚ) (f p : Vec3) (l : List Block)
    (dts : List ℚ) :
    (0 < cd → kickBlocks e cd f p l = l ∧ kickCooldownAfter e cd = cd
      ∧ cooldownTick cd dt = cd - dt)
    ∧ (cd ≤ 0 → kickCooldownAfter true cd = 1/2)
    ∧ ((∀ d ∈ dts, 0 ≤ d) → dts.sum < 1/2 → 0 < dts.foldl cooldownTick (1/2)) := by
  refine ⟨?_, ?_, ?_⟩
  · intro hcd
    have hneg : ¬ (e = true ∧ cd ≤ 0) := fun hb => absurd hb.2 (not_le.mpr hcd)
    refine ⟨?_, ?_, ?_⟩
    · unfold kickBlocks
      rw [if_neg hneg]
    · unfold kickCooldownAfter
      rw [if_neg hneg]
    · unfold cooldownTick
      rw [if_pos hcd]
  · intro hle
    unfold kickCooldownAfter
    rw [if_pos ⟨rfl, hle⟩]
  · intro hnn hsum
    exact cooldownFold_pos dts (1/2) (by norm_num) hsum hnn

/-- Witness for C9: a pressed kick with cooldown 1 leaves a block list intact,
and over two frames of 0.2 s each after a kick the cooldown stays positive. -/
theorem kick_cooldown_rules_witness :
    (0 : ℚ) < 1
    ∧ kickBlocks true 1 ⟨1, 0, 0⟩ ⟨0, 2, 0⟩ [cxBlock] = [cxBlock]
    ∧ (∀ d ∈ [(1 : ℚ)/5, 1/5], 0 ≤ d)
    ∧ ([(1 : ℚ)/5, 1/5].sum < 1/2)
    ∧ 0 < [(1 : ℚ)/5, 1/5].foldl cooldownTick (1/2) := by
  have hc : (0 : ℚ) < 1 := by norm_num
  have hnn : ∀ d ∈ [(1 : ℚ)/5, 1/5], 0 ≤ d := by
    intro d hd
    rcases List.mem_cons.mp hd with h | h
    · rw [h]; norm_num
    · rcases List.mem_cons.mp h with h' | h'
      · rw [h']; norm_num
      · cases h'
  have hsum : ([(1 : ℚ)/5, 1/5]).sum < 1/2 := by
    simp [List.sum_cons]
    norm_num
  refine ⟨hc, ?_, hnn, hsum, ?_⟩
  · exact ((kick_cooldown_rules true 1 (1/4) ⟨1, 0, 0⟩ ⟨0, 2, 0⟩ [cxBlock]
      [(1 : ℚ)/5, 1/5]).1 hc).1
  · exact (kick_cooldown_rules true 1 (1/4) ⟨1, 0, 0⟩ ⟨0, 2, 0⟩ [cxBlock]
      [(1 : ℚ)/5, 1/5]).2.2 hnn hsum

theorem playerCollideFold_pos_vel (box : BoundingBox) (old : Vec3) :
    ∀ (l : List Block) (acc : CollideAcc),
      ((l.foldl (playerCollideStep box old) acc).pos = acc.pos
        ∨ (l.foldl (playerCollideStep box old) acc).pos = old)
      ∧ (l.foldl (playerCollideStep box old) acc).vel.y = acc.vel.y := by
  intro l
  induction l with
  | nil => intro acc; exact ⟨Or.inl rfl, rfl⟩
  | cons b rest ih =>
    intro acc
    rw [List.foldl_cons]
    obtain ⟨hpos, hvel⟩ := ih (playerCollideStep box old acc b)
    have hstep_pos : (playerCollideStep box old acc b).pos = acc.pos
        ∨ (playerCollideStep box old acc b).pos = old := by
      unfold playerCollideStep
      split
      · exact Or.inr rfl
      · exact Or.inl rfl
    have hstep_vel : (playerCollideStep box old acc b).vel.y = acc.vel.y := by
      unfold playerCollideStep
      split
      · rfl
      · rfl
    constructor
    · rcases hpos with h | h
      · rw [h]
        exact hstep_pos
      · exact Or.inr h
    · rw [hvel, hstep_vel]

/-- Claim C2: at the end of a simulated frame in normal mode the player's
vertical position is at least `groundLevel + playerHeight`, the grounded flag
holds exactly when the position sits exactly on that floor, and a grounded
player has zero vertical velocity. The hypothesis is the same invariant at the
start of the frame (it holds vacuously of the initial state, whose grounded
flag is false), so the property propagates to every simulated frame. -/
theorem player_floor_and_grounded (qsin qcos : ℚ → ℚ) (inp : FrameInput) (s : SimState)
    (hInv : s.isGrounded = true → s.playerPosition.y = groundLevel + playerHeight
      ∧ s.playerVelocity.y = 0) :
    groundLevel + playerHeight ≤ (normalFrame qsin qcos inp s).playerPosition.y
    ∧ ((normalFrame qsin qcos inp s).isGrounded = true
        ↔ (normalFrame qsin qcos inp s).playerPosition.y = groundLevel + playerHeight)
    ∧ ((normalFrame qsin qcos inp s).isGrounded = true
        → (normalFrame qsin qcos inp s).playerVelocity.y = 0) := by
  have hpos : (normalFrame qsin qcos inp s).playerPosition
      = clampedPos (frameCollide qsin qcos inp s).pos := rfl
  have hvel : (normalFrame qsin qcos inp s).playerVelocity
      = clampedVel (frameCollide qsin qcos inp s).pos (frameCollide qsin qcos inp s).vel := rfl
  have hgr : (normalFrame qsin qcos inp s).isGrounded
      = clampedGrounded (frameCollide qsin qcos inp s).pos (frameGrounded1 inp s) := rfl
  by_cases hcl : (frameCollide qsin qcos inp s).pos.y ≤ groundLevel + playerHeight
  · rw [hpos, hvel, hgr]
    unfold clampedPos clampedVel clampedGrounded
    rw [if_pos hcl, if_pos hcl, if_pos hcl]
    exact ⟨le_refl _, by simp, fun _ => rfl⟩
  · have hgt : groundLevel + playerHeight < (frameCollide qsin qcos inp s).pos.y :=
      not_le.mp hcl
    have hg1 : frameGrounded1 inp s = false := by
      cases hgc : frameGrounded1 inp s
      · rfl
      · exfalso
        have hj : frameJumped inp s = false := by
          cases hjc : frameJumped inp s
          · rfl
          · exfalso
            unfold frameGrounded1 at hgc
            rw [hjc] at hgc
            simp at hgc
        have hsg : s.isGrounded = true := by
          unfold frameGrounded1 at hgc
          rw [hj] at hgc
          simpa using hgc
        obtain ⟨hy2, hv0⟩ := hInv hsg
        have hvm : (frameVelMove qsin qcos inp s).y = 0 := hv0
        have hv2 : (frameVel2 qsin qcos inp s).y = 0 := by
          unfold frameVel2
          rw [hj]
          simpa using hvm
        have hv3 : (frameVel3 qsin qcos inp s).y = 0 := by
          unfold frameVel3
          rw [hgc]
          simpa using hv2
        have hpi : (framePosIntegrated qsin qcos inp s).y = groundLevel + playerHeight := by
          unfold framePosIntegrated Vector3Add Vector3Scale
          simp [hv3, hy2]
        obtain ⟨hcp, _⟩ := playerCollideFold_pos_vel
          (GetPlayerBoundingBox (framePosIntegrated qsin qcos inp s) playerSize)
          s.playerPosition (frameBlocksKicked qsin qcos inp s)
          ⟨[], framePosIntegrated qsin qcos inp s, frameVel3 qsin qcos inp s⟩
        rcases hcp with hcp | hcp
        · replace hcp : (frameCollide qsin qcos inp s).pos
              = framePosIntegrated qsin qcos inp s := hcp
          rw [hcp, hpi] at hgt
          exact lt_irrefl _ hgt
        · replace hcp : (frameCollide qsin qcos inp s).pos = s.playerPosition := hcp
          rw [hcp, hy2] at hgt
          exact lt_irrefl _ hgt
    rw [hpos, hvel, hgr]
    unfold clampedPos clampedVel clampedGrounded
    rw [if_neg hcl, if_neg hcl, if_neg hcl, hg1]
    refine ⟨le_of_lt hgt, ?_, ?_⟩
    · constructor
      · intro h
        cases h
      · intro h
        rw [h] at hgt
        exact absurd hgt (lt_irrefl _)
    · intro h
      cases h

/-- Witness for C2 at the initial state of the program (player at height 2,
airborne flag false, no blocks), with zero elapsed time and no input. -/
theorem player_floor_and_grounded_witness :
    ((⟨0, 0, ⟨0, 2, 0⟩, ⟨0, 0, 0⟩, false, 0, []⟩ : SimState).isGrounded = true →
      (⟨0, 0, ⟨0, 2, 0⟩, ⟨0, 0, 0⟩, false, 0, []⟩ : SimState).playerPosition.y
        = groundLevel + playerHeight
      ∧ (⟨0, 0, ⟨0, 2, 0⟩, ⟨0, 0, 0⟩, false, 0, []⟩ : SimState).playerVelocity.y = 0)
    ∧ groundLevel + playerHeight ≤ (normalFrame (fun _ => 0) (fun _ => 0)
        ⟨0, 0, 0, false, false, false, false, false, false⟩
        ⟨0, 0, ⟨0, 2, 0⟩, ⟨0, 0, 0⟩, false, 0, []⟩).playerPosition.y := by
  have h : (⟨0, 0, ⟨0, 2, 0⟩, ⟨0, 0, 0⟩, false, 0, []⟩ : SimState).isGrounded = true →
      (⟨0, 0, ⟨0, 2, 0⟩, ⟨0, 0, 0⟩, false, 0, []⟩ : SimState).playerPosition.y
        = groundLevel + playerHeight
      ∧ (⟨0, 0, ⟨0, 2, 0⟩, ⟨0, 0, 0⟩, false, 0, []⟩ : SimState).playerVelocity.y = 0 := by
    intro hc
    cases hc
  exact ⟨h, (player_floor_and_grounded (fun _ => 0) (fun _ => 0)
    ⟨0, 0, 0, false, false, false, false, false, false⟩
    ⟨0, 0, ⟨0, 2, 0⟩, ⟨0, 0, 0⟩, false, 0, []⟩ h).1⟩

theorem groundCollideBlock_isStatic (b : Block) :
    (groundCollideBlock b).isStatic = b.isStatic := by
  unfold groundCollideBlock
  split
  · rfl
  · rfl

theorem deadzoneBlock_isStatic (b : Block) :
    (deadzoneBlock b).isStatic = b.isStatic := rfl

theorem kickBlock_static (f p : Vec3) {b : Block} (hst : b.isStatic = true) :
    kickBlock f p b = b := by
  unfold kickBlock
  split
  · split
    · rename_i hc
      rw [hst] at hc
      cases hc.2
    · rfl
  · rfl

theorem kickBlocks_static_at {l : List Block} {i : Nat} {b : Block} (e : Bool) (cd : ℚ)
    (f p : Vec3) (hb : l[i]? = some b) (hst : b.isStatic = true) :
    (kickBlocks e cd f p l)[i]? = some b := by
  unfold kickBlocks
  split
  · rw [List.getElem?_map, hb]
    simp [kickBlock_static f p hst]
  · exact hb

theorem sp_refl (l : List Block) : StaticPreserved l l :=
  ⟨fun _ => rfl, fun _ _ h _ => h⟩

theorem sp_set_nonstatic {l0 l : List Block} (h : StaticPreserved l0 l) (i : Nat)
    (hns : ∀ b0 : Block, l0[i]? = some b0 → b0.isStatic = false)
    {b' : Block} (hb' : ∀ bi : Block, l[i]? = some bi → b'.isStatic = bi.isStatic) :
    StaticPreserved l0 (l.set i b') := by
  constructor
  · intro k
    by_cases hk : i = k
    · subst hk
      rw [List.getElem?_set_self', ← h.1 i]
      cases hbi : l[i]? with
      | none => simp
      | some bi => simp [hb' bi hbi]
    · rw [List.getElem?_set_ne hk]
      exact h.1 k
  · intro k b0 hb0 hst
    by_cases hk : i = k
    · subst hk
      rw [hns b0 hb0] at hst
      cases hst
    · rw [List.getElem?_set_ne hk]
      exact h.2 k b0 hb0 hst

theorem innerStep_sp {l0 l : List Block} (h : StaticPreserved l0 l) (i : Nat)
    (hns : ∀ b0 : Block, l0[i]? = some b0 → b0.isStatic = false)
    (oldPos : Vec3) (box1 : BoundingBox) (j : Nat) :
    StaticPreserved l0 (innerStep i oldPos box1 l j) := by
  unfold innerStep
  split
  · exact h
  rename_i hij
  split
  case _ bi bj heqi heqj =>
    split
    · dsimp only
      split
      · rename_i hcond
        have hnsj : ∀ b0 : Block, l0[j]? = some b0 → b0.isStatic = false := by
          intro b0 hb0
          have h1 := h.1 j
          rw [heqj, hb0] at h1
          simp at h1
          rw [← h1]
          exact hcond.2
        refine sp_set_nonstatic (sp_set_nonstatic h i hns ?_) j hnsj ?_
        · intro bi0 hbi0
          rw [heqi] at hbi0
          cases hbi0
          rfl
        · intro bj0 hbj0
          rw [List.getElem?_set_ne hij, heqj] at hbj0
          cases hbj0
          rfl
      · refine sp_set_nonstatic h i hns ?_
        intro bi0 hbi0
        rw [heqi] at hbi0
        cases hbi0
        rfl
    · exact h
  case _ => exact h

theorem outerStep_sp {l0 : List Block} (dt : ℚ) (i : Nat) {l : List Block}
    (h : StaticPreserved l0 l) : StaticPreserved l0 (outerStep dt l i) := by
  unfold outerStep
  split
  · exact h
  rename_i bi heq
  split
  · exact h
  rename_i hst
  have hstf : bi.isStatic = false := by
    cases hb : bi.isStatic
    · rfl
    · exact absurd hb hst
  have hns : ∀ b0 : Block, l0[i]? = some b0 → b0.isStatic = false := by
    intro b0 hb0
    have h1 := h.1 i
    rw [heq, hb0] at h1
    simp at h1
    rw [← h1]
    exact hstf
  have h1 : StaticPreserved l0 (l.set i (groundCollideBlock
      { bi with
        velocity := ⟨bi.velocity.x * friction, bi.velocity.y - blockGravity * dt,
          bi.velocity.z * friction⟩,
        position := Vector3Add bi.position (Vector3Scale
          ⟨bi.velocity.x * friction, bi.velocity.y - blockGravity * dt,
            bi.velocity.z * friction⟩ dt) })) := by
    refine sp_set_nonstatic h i hns ?_
    intro bi0 hbi0
    rw [heq] at hbi0
    cases hbi0
    rw [groundCollideBlock_isStatic]
  have h2 : StaticPreserved l0 ((List.range l.length).foldl
      (innerStep i bi.position (GetBlockBoundingBox (groundCollideBlock
        { bi with
          velocity := ⟨bi.velocity.x * friction, bi.velocity.y - blockGravity * dt,
            bi.velocity.z * friction⟩,
          position := Vector3Add bi.position (Vector3Scale
            ⟨bi.velocity.x * friction, bi.velocity.y - blockGravity * dt,
              bi.velocity.z * friction⟩ dt) }) blockSize))
      (l.set i (groundCollideBlock
        { bi with
          velocity := ⟨bi.velocity.x * friction, bi.velocity.y - blockGravity * dt,
            bi.velocity.z * friction⟩,
          position := Vector3Add bi.position (Vector3Scale
            ⟨bi.velocity.x * friction, bi.velocity.y - blockGravity * dt,
              bi.velocity.z * friction⟩ dt) }))) := by
    refine foldl_invariant (StaticPreserved l0) _ ?_ _ _ h1
    intro lc jc hc
    exact innerStep_sp hc i hns _ _ jc
  dsimp only
  split
  · exact h2
  rename_i bi2 heq2
  refine sp_set_nonstatic h2 i hns ?_
  intro bi0 hbi0
  rw [heq2] at hbi0
  cases hbi0
  rfl

theorem blockPhysics_sp (dt : ℚ) (l : List Block) :
    StaticPreserved l (blockPhysics dt l) := by
  unfold blockPhysics
  refine foldl_invariant (StaticPreserved l) _ ?_ _ _ (sp_refl l)
  intro lc ic hc
  exact outerStep_sp dt ic hc

theorem playerCollideFold_blocks (box : BoundingBox) (old : Vec3) :
    ∀ (l : List Block) (acc : CollideAcc),
      (l.foldl (playerCollideStep box old) acc).blocks.length
          = acc.blocks.length + l.length
      ∧ (∀ k : Nat, k < acc.blocks.length →
          (l.foldl (playerCollideStep box old) acc).blocks[k]? = acc.blocks[k]?)
      ∧ (∀ (j : Nat) (b : Block), l[j]? = some b → b.isStatic = true →
          (l.foldl (playerCollideStep box old) acc).blocks[acc.blocks.length + j]?
            = some b) := by
  intro l
  induction l with
  | nil =>
    intro acc
    refine ⟨by simp, fun k _ => rfl, ?_⟩
    intro j b hb
    cases hb
  | cons hd tl ih =>
    intro acc
    rw [List.foldl_cons]
    obtain ⟨ihlen, ihpre, ihstat⟩ := ih (playerCollideStep box old acc hd)
    have hstep_blocks : ∃ b', (playerCollideStep box old acc hd).blocks
        = acc.blocks ++ [b'] ∧ (hd.isStatic = true → b' = hd) := by
      unfold playerCollideStep
      split
      · refine ⟨_, rfl, ?_⟩
        intro hst
        split
        · rename_i hc
          rw [hst] at hc
          cases hc
        · rfl
      · exact ⟨hd, rfl, fun _ => rfl⟩
    obtain ⟨b', hb', hstatic⟩ := hstep_blocks
    have hlen' : (playerCollideStep box old acc hd).blocks.length
        = acc.blocks.length + 1 := by
      rw [hb']
      simp
    refine ⟨?_, ?_, ?_⟩
    · rw [ihlen, hlen', List.length_cons]
      omega
    · intro k hk
      rw [ihpre k (by omega), hb', List.getElem?_append_left hk]
    · intro j b hb hst
      cases j with
      | zero =>
        have hbd : hd = b := by simpa using hb
        subst hbd
        have hpre := ihpre acc.blocks.length (by omega)
        rw [Nat.add_zero, hpre, hb', List.getElem?_concat_length, hstatic hst]
      | succ j =>
        have hb2 : tl[j]? = some b := by simpa using hb
        have hres := ihstat j b hb2 hst
        rw [hlen'] at hres
        have harith : acc.blocks.length + (j + 1) = acc.blocks.length + 1 + j := by omega
        rw [harith]
        exact hres

/-- Claim C4: a static block is untouched by a simulated frame's mutation
passes: the kick pass, the player collision push, and the Block Physics Engine
leave its entry (position, velocity and health included) identical, and — for
the full `normalFrame` with a positive-health static block — the block is still
present unchanged in the world after the final prune. -/
theorem static_block_frame_invariant (qsin qcos : ℚ → ℚ) (inp : FrameInput)
    (s : SimState) (e : Bool) (cd dt : ℚ) (f p : Vec3) (box : BoundingBox)
    (old pos vel : Vec3) (l : List Block) (i : Nat) (b : Block)
    (hb : l[i]? = some b) (hst : b.isStatic = true) :
    (blockPhysics dt (playerCollide box old (kickBlocks e cd f p l) pos vel).blocks)[i]?
        = some b
    ∧ (b ∈ s.blocks → b.isStatic = true → 0 < b.health →
        b ∈ (normalFrame qsin qcos inp s).blocks) := by
  constructor
  · have h1 : (kickBlocks e cd f p l)[i]? = some b := kickBlocks_static_at e cd f p hb hst
    have h2 : (playerCollide box old (kickBlocks e cd f p l) pos vel).blocks[i]?
        = some b := by
      have := (playerCollideFold_blocks box old (kickBlocks e cd f p l)
        ⟨[], pos, vel⟩).2.2 i b h1 hst
      simpa [playerCollide] using this
    exact (blockPhysics_sp dt _).2 i b h2 hst
  · intro hmem hst' hhealth
    obtain ⟨k, hk⟩ := List.mem_iff_getElem?.mp hmem
    have h1 : (frameBlocksKicked qsin qcos inp s)[k]? = some b :=
      kickBlocks_static_at _ _ _ _ hk hst'
    have h2 : (frameCollide qsin qcos inp s).blocks[k]? = some b := by
      have := (playerCollideFold_blocks
        (GetPlayerBoundingBox (framePosIntegrated qsin qcos inp s) playerSize)
        s.playerPosition (frameBlocksKicked qsin qcos inp s)
        ⟨[], framePosIntegrated qsin qcos inp s, frameVel3 qsin qcos inp s⟩).2.2
        k b h1 hst'
      simpa [frameCollide, playerCollide] using this
    have h3 : (blockPhysics inp.dt (frameCollide qsin qcos inp s).blocks)[k]?
        = some b :=
      (blockPhysics_sp inp.dt _).2 k b h2 hst'
    have h4 : b ∈ blockPhysics inp.dt (frameCollide qsin qcos inp s).blocks :=
      List.getElem?_mem h3
    have h5 : (normalFrame qsin qcos inp s).blocks
        = pruneBlocks (blockPhysics inp.dt (frameCollide qsin qcos inp s).blocks) := rfl
    rw [h5]
    exact (prune_pass_exact _).2.2 b h4 hhealth

/-- Witness for C4: a static block alone in the world is untouched by the
passes and survives the whole frame. -/
theorem static_block_frame_invariant_witness :
    [{ cxBlock with isStatic := true, health := 1000, maxHealth := 1000 }][0]?
        = some { cxBlock with isStatic := true, health := 1000, maxHealth := 1000 }
    ∧ ({ cxBlock with isStatic := true, health := 1000, maxHealth := 1000 } : Block).isStatic
        = true
    ∧ (blockPhysics 1 (playerCollide
        (GetPlayerBoundingBox ⟨0, 2, 0⟩ playerSize) ⟨0, 2, 0⟩
        (kickBlocks true 0 ⟨1, 0, 0⟩ ⟨0, 2, 0⟩
          [{ cxBlock with isStatic := true, health := 1000, maxHealth := 1000 }])
        ⟨0, 2, 0⟩ ⟨0, 0, 0⟩).blocks)[0]?
      = some { cxBlock with isStatic := true, health := 1000, maxHealth := 1000 } := by
  have h1 : [{ cxBlock with isStatic := true, health := 1000, maxHealth := 1000 }][0]?
      = some { cxBlock with isStatic := true, health := 1000, maxHealth := 1000 } := rfl
  have h2 : ({ cxBlock with isStatic := true, health := 1000, maxHealth := 1000 } : Block).isStatic
      = true := rfl
  exact ⟨h1, h2,
    (static_block_frame_invariant (fun _ => 0) (fun _ => 0)
      ⟨0, 0, 0, false, false, false, false, false, false⟩
      ⟨0, 0, ⟨0, 2, 0⟩, ⟨0, 0, 0⟩, false, 0, []⟩
      true 0 1 ⟨1, 0, 0⟩ ⟨0, 2, 0⟩
      (GetPlayerBoundingBox ⟨0, 2, 0⟩ playerSize) ⟨0, 2, 0⟩ ⟨0, 2, 0⟩ ⟨0, 0, 0⟩
      [{ cxBlock with isStatic := true, health := 1000, maxHealth := 1000 }] 0
      { cxBlock with isStatic := true, health := 1000, maxHealth := 1000 }
      h1 h2).1⟩

